import Mathlib

/-!
Shallow embedding of the SimpleBlog Django application
(`blog/api/models.py`, `blog/api/serializers.py`, `blog/api/views.py`).

The store keeps the two tables (`Post`, `Comment`) as lists of records.
Timestamps are server-assigned naturals (`auto_now_add` sets `created_at`
on insert, `auto_now` refreshes `updated_at` on every save); the server
clock is passed explicitly as `now`.  Fallible endpoints return `Except`;
the nested-comment merge of `PostSerializer.update` returns the store it
reached together with an optional error, because a failure in the middle
of the loop leaves the earlier writes in place (no rollback).
-/

namespace SimpleBlog

/-- Row of the `Post` table (`models.py`, class `Post`). -/
structure Post where
  id : Nat
  title : String
  content : String
  created_at : Nat
  updated_at : Nat
deriving Repr, DecidableEq

/-- Row of the `Comment` table (`models.py`, class `Comment`); `post` is the
foreign key to the parent `Post`. -/
structure Comment where
  id : Nat
  post : Nat
  author : String
  content : String
  created_at : Nat
  updated_at : Nat
deriving Repr, DecidableEq

/-- The persistent state: both tables plus the auto-increment counter used
for a `Comment` inserted without an explicit primary key. -/
structure Store where
  posts : List Post
  comments : List Comment
  nextCommentId : Nat
deriving Repr, DecidableEq

/-- Error outcomes surfaced by the endpoints: `notFound` is an Http404
(`get_object_or_404` or a miss in the scoped queryset), `validationError`
is a serializer validation failure, `lookupFailed` is the uncaught
`Comment.DoesNotExist` raised by `Comment.objects.get` inside
`PostSerializer.update`. -/
inductive ApiError where
  | notFound
  | validationError
  | lookupFailed
deriving Repr, DecidableEq

/-- Request body accepted by `CommentSerializer` (`fields = "__all__"`):
the writable fields are `post`, `author`, `content`; `id`, `created_at`
and `updated_at` are read-only.  A missing key is `none`. -/
structure CommentBody where
  post : Option Nat
  author : Option String
  content : Option String
deriving Repr, DecidableEq

/-- One element of the `comments` list handed to `PostSerializer.update`
(`comment_data` in the source): an optional `id` plus the writable
comment fields. -/
structure CommentPayload where
  id : Option Nat
  author : Option String
  content : Option String
deriving Repr, DecidableEq

/-- Validated data for a `Post` update: the writable fields of
`PostSerializer` plus the `comments` list popped at the top of
`PostSerializer.update` (`none` when the key is absent). -/
structure PostPayload where
  title : Option String
  content : Option String
  comments : Option (List CommentPayload)
deriving Repr, DecidableEq

/-- Existence test `Post.objects.filter(id=pid).exists()`. -/
def postExists (s : Store) (pid : Nat) : Bool :=
  s.posts.any (fun p => p.id == pid)

/-- Validation of a `CommentSerializer` body.  On a full (non-PATCH)
request every writable field is required (`post` has neither default nor
`null=True`, `author`/`content` are `blank=False`); a present `post` must
reference an existing `Post` (`PrimaryKeyRelatedField`); a present
`author` is capped at 50 characters and may not be blank; a present
`content` may not be blank. -/
def validateCommentBody (s : Store) (b : CommentBody) (isPatch : Bool) : Option ApiError :=
  if !isPatch && (b.post.isNone || b.author.isNone || b.content.isNone) then
    some .validationError
  else if (match b.post with
    | some p => !postExists s p
    | none => false) then some .validationError
  else if (match b.author with
    | some a => decide (a.length > 50) || a == ""
    | none => false) then some .validationError
  else if (match b.content with
    | some c => c == ""
    | none => false) then some .validationError
  else none

/-- Ordering used by `order_by("-created_at")`: newest first. -/
def newerFirst (a b : Comment) : Prop :=
  b.created_at ≤ a.created_at

instance : DecidableRel newerFirst := fun a b =>
  Nat.decLe b.created_at a.created_at

instance : IsTotal Comment newerFirst :=
  ⟨fun a b => Nat.le_total b.created_at a.created_at⟩

instance : IsTrans Comment newerFirst :=
  ⟨fun _ _ _ h1 h2 => Nat.le_trans h2 h1⟩

/-- Queryset of `CommentListCreateAPIView.get_queryset`:
`Comment.objects.filter(post_id=post_pk).order_by("-created_at")`. -/
def commentList (s : Store) (post_pk : Nat) : List Comment :=
  List.insertionSort newerFirst (s.comments.filter (fun c => c.post == post_pk))

/-- Row inserted by `serializer.save(post=post)` in
`CommentListCreateAPIView.perform_create`: the parent is the URL post,
the primary key comes from the auto-increment counter, both timestamps
are the server clock. -/
def newComment (s : Store) (post_pk : Nat) (b : CommentBody) (now : Nat) : Comment :=
  { id := s.nextCommentId, post := post_pk,
    author := b.author.getD "", content := b.content.getD "",
    created_at := now, updated_at := now }

/-- Endpoint POST `/posts/{post_pk}/comments/`: the generic create view
validates the body first, then `perform_create` runs
`get_object_or_404(Post, id=post_pk)` and `serializer.save(post=post)`,
so the stored parent is the URL post whatever the body's `post` said. -/
def commentCreate (s : Store) (post_pk : Nat) (b : CommentBody) (now : Nat) :
    Except ApiError (Store × Comment) :=
  match validateCommentBody s b false with
  | some e => .error e
  | none =>
    if postExists s post_pk then
      .ok ({ s with comments := s.comments ++ [newComment s post_pk b now],
                    nextCommentId := s.nextCommentId + 1 }, newComment s post_pk b now)
    else .error .notFound

/-- Object lookup of `CommentRetrieveUpdateDestroyAPIView`: the queryset is
`Comment.objects.filter(post_id=post_pk)` and `get_object` then filters by
the `pk` URL kwarg. -/
def getScopedComment (s : Store) (post_pk pk : Nat) : Option Comment :=
  (s.comments.filter (fun c => c.post == post_pk)).find? (fun c => c.id == pk)

/-- Endpoint GET `/posts/{post_pk}/comments/{pk}/`. -/
def commentRetrieve (s : Store) (post_pk pk : Nat) : Except ApiError Comment :=
  match getScopedComment s post_pk pk with
  | none => .error .notFound
  | some c => .ok c

/-- Endpoint PUT/PATCH `/posts/{post_pk}/comments/{pk}/`: `get_object`
(404 on a miss in the scoped queryset), then body validation, then
`ModelSerializer.update` overwrites each validated field — including a
body-supplied `post` — and saves (refreshing `updated_at`). -/
def commentUpdate (s : Store) (post_pk pk : Nat) (b : CommentBody)
    (isPatch : Bool) (now : Nat) : Except ApiError (Store × Comment) :=
  match getScopedComment s post_pk pk with
  | none => .error .notFound
  | some c =>
    match validateCommentBody s b isPatch with
    | some e => .error e
    | none =>
      let c2 : Comment :=
        { c with post := b.post.getD c.post, author := b.author.getD c.author,
                 content := b.content.getD c.content, updated_at := now }
      .ok ({ s with comments := s.comments.map (fun x => if x.id == pk then c2 else x) }, c2)

/-- Endpoint DELETE `/posts/{post_pk}/comments/{pk}/`: `get_object` on the
scoped queryset, then `instance.delete()`. -/
def commentDelete (s : Store) (post_pk pk : Nat) : Except ApiError Store :=
  match getScopedComment s post_pk pk with
  | none => .error .notFound
  | some _ => .ok { s with comments := s.comments.filter (fun c => c.id != pk) }

/-- Endpoint DELETE `/posts/{pk}/`: `get_object_or_404` on all posts, then
`instance.delete()`; `on_delete=models.CASCADE` on `Comment.post` removes
every comment of the post. -/
def postDelete (s : Store) (pk : Nat) : Except ApiError Store :=
  if postExists s pk then
    .ok { s with posts := s.posts.filter (fun p => p.id != pk),
                 comments := s.comments.filter (fun c => c.post != pk) }
  else .error .notFound

/-- Overwrite step of the merge (`for attr, value in comment_data.items():
setattr(comment, attr, value)` followed by `comment.save()`): each
submitted field replaces the stored one and `auto_now` refreshes
`updated_at`. -/
def applyPayload (c : Comment) (d : CommentPayload) (now : Nat) : Comment :=
  { c with id := d.id.getD c.id, author := d.author.getD c.author,
           content := d.content.getD c.content, updated_at := now }

/-- Create branch of the merge
(`Comment.objects.create(post=instance, **comment_data)`): a present `id`
key (necessarily `0` on this branch) becomes the explicit primary key of
the new row, otherwise the auto-increment counter supplies it; an absent
`author`/`content` falls back to the model's empty-string default. -/
def createFromPayload (s : Store) (postId : Nat) (d : CommentPayload) (now : Nat) : Store :=
  match d.id with
  | some cid =>
    { s with comments := s.comments ++
        [{ id := cid, post := postId, author := d.author.getD "",
           content := d.content.getD "", created_at := now, updated_at := now }] }
  | none =>
    { s with comments := s.comments ++
        [{ id := s.nextCommentId, post := postId, author := d.author.getD "",
           content := d.content.getD "", created_at := now, updated_at := now }],
             nextCommentId := s.nextCommentId + 1 }

/-- In-place save of an overwritten comment: the row whose primary key is
`n` is replaced by `c2` (`comment.save()` writes by pk). -/
def overwriteIn (l : List Comment) (n : Nat) (c2 : Comment) : List Comment :=
  l.map (fun x => if x.id == n then c2 else x)

/-- One iteration of the loop in `PostSerializer.update`:
`comment_id = comment_data.get("id", None)` followed by the truthiness
test `if comment_id:` — so both a missing id and id `0` take the create
branch; a nonzero id is fetched scoped to the post
(`Comment.objects.get(id=comment_id, post=instance)`), a miss raising
`Comment.DoesNotExist`. -/
def mergeStep (postId now : Nat) (s : Store) (d : CommentPayload) :
    Store × Option ApiError :=
  match d.id with
  | some cid =>
    if cid == 0 then (createFromPayload s postId d now, none)
    else
      match s.comments.find? (fun c => c.id == cid && c.post == postId) with
      | some c => ({ s with comments := overwriteIn s.comments cid (applyPayload c d now) }, none)
      | none => (s, some .lookupFailed)
  | none => (createFromPayload s postId d now, none)

/-- The `for comment_data in comments_data:` loop of
`PostSerializer.update`; an exception aborts the remaining iterations but
the writes already made stay (no transaction wraps the loop). -/
def mergeComments (postId now : Nat) : Store → List CommentPayload → Store × Option ApiError
  | s, [] => (s, none)
  | s, d :: rest =>
    match mergeStep postId now s d with
    | (s2, none) => mergeComments postId now s2 rest
    | (s2, some e) => (s2, some e)

/-- The method `PostSerializer.update(instance, validated_data)`: pop the
`comments` key, apply the remaining post fields and save
(`super().update`), then run the merge loop when a comments list was
present. -/
def postSerializerUpdate (s : Store) (p : Post) (pl : PostPayload) (now : Nat) :
    Store × Option ApiError :=
  let p2 : Post := { p with title := pl.title.getD p.title,
                            content := pl.content.getD p.content, updated_at := now }
  let s1 : Store := { s with posts := s.posts.map (fun x => if x.id == p.id then p2 else x) }
  match pl.comments with
  | none => (s1, none)
  | some ds => mergeComments p.id now s1 ds

/-- Referential integrity of the store: every comment's foreign key names
an existing post (enforced by the database). -/
def fkIntegrity (s : Store) : Prop :=
  ∀ c ∈ s.comments, postExists s c.post = true

/-- Primary-key uniqueness of the comment table. -/
def uniqueCommentIds (s : Store) : Prop :=
  List.Pairwise (fun a b => a.id ≠ b.id) s.comments

instance (s : Store) : Decidable (fkIntegrity s) :=
  List.decidableBAll _ s.comments

instance (s : Store) : Decidable (uniqueCommentIds s) :=
  List.instDecidablePairwise s.comments

/-! Concrete fixtures used by the witnesses and counterexamples. -/

def pA : Post := ⟨1, "A", "B", 0, 0⟩

def pB : Post := ⟨2, "C", "D", 0, 0⟩

def cA : Comment := ⟨1, 1, "x", "y", 0, 0⟩

def cB : Comment := ⟨2, 1, "u", "v", 3, 3⟩

def cC : Comment := ⟨3, 2, "w", "z", 1, 1⟩

/-- Two posts, three comments (two under post 1, one under post 2). -/
def storeA : Store := ⟨[pA, pB], [cA, cB, cC], 4⟩

/-- Two posts, one comment under post 1. -/
def storeB : Store := ⟨[pA, pB], [cA], 2⟩

/-- One post, no comments. -/
def storeC : Store := ⟨[pA], [], 1⟩

/-- Uniqueness of comment ids forces two rows with the same id to be the
same row. -/
theorem eq_of_mem_of_id_eq {s : Store} (hu : uniqueCommentIds s)
    {x y : Comment} (hx : x ∈ s.comments) (hy : y ∈ s.comments)
    (h : x.id = y.id) : x = y := by
  by_contra hne
  have hsymm : Symmetric (fun a b : Comment => a.id ≠ b.id) :=
    fun a b hab he => hab he.symm
  exact hu.forall hsymm hx hy hne h

/-! Theorems settling the claims. -/

/-- C6: listing comments under a post identifier that matches no existing
post succeeds and returns the empty list: the list endpoint never checks
the post's existence, and under referential integrity no comment can
reference the missing id. -/
theorem C6_list_under_missing_post_is_empty (s : Store) (pid : Nat)
    (hfk : fkIntegrity s) (hnp : postExists s pid = false) :
    commentList s pid = [] := by
  have hf : s.comments.filter (fun c => c.post == pid) = [] := by
    rw [List.filter_eq_nil_iff]
    intro c hc hpc
    have h1 : c.post = pid := by simpa using hpc
    have h2 := hfk c hc
    rw [h1, hnp] at h2
    exact Bool.false_ne_true h2
  unfold commentList
  rw [hf]
  rfl

/-- Witness for C6 at a concrete store: post id 9 does not exist in
`storeA`, and the comment list under it is empty. -/
theorem C6_witness : commentList storeA 9 = [] :=
  C6_list_under_missing_post_is_empty storeA 9 (by decide) (by decide)

def bodyNoPost : CommentBody := ⟨none, some "x", some "hi"⟩

def bodyWithPost : CommentBody := ⟨some 1, some "x", some "hi"⟩

def cNew4 : Comment := ⟨1, 1, "x", "hi", 5, 5⟩

/-- C4: a comment-create request under an existing post whose body holds
only `author` and `content` is rejected by `CommentSerializer` with a
validation error (`post` is a required writable field under
`fields = "__all__"`), so the 201-with-post-forced outcome the spec
promises only happens when the body also carries a valid `post`
reference. -/
theorem C4_create_without_post_field_fails_validation :
    commentCreate storeC 1 bodyNoPost 5 = .error .validationError ∧
    commentCreate storeC 1 bodyWithPost 5 =
      .ok ({ storeC with comments := [cNew4], nextCommentId := 2 }, cNew4) :=
  ⟨rfl, rfl⟩

def bodyMove : CommentBody := ⟨some 2, some "a", some "b"⟩

def cMoved : Comment := ⟨1, 2, "a", "b", 0, 5⟩

/-- C2 counterexample: updating comment 1 under the URL of post 1 with a
body whose `post` field names post 2 succeeds and leaves the comment
attached to post 2, not to the post in the URL path. -/
theorem C2_claim_counterexample :
    commentUpdate storeB 1 1 bodyMove false 5 =
      .ok ({ storeB with comments := [cMoved] }, cMoved) ∧ cMoved.post ≠ 1 :=
  ⟨rfl, by decide⟩

/-- C5: the comment list under post `q` holds exactly the stored comments
whose parent is `q`, it is sorted newest-first on `created_at`, and of two
returned comments with strictly ordered creation times the younger one
appears at a strictly earlier position. -/
theorem C5_comment_list_exact_and_sorted (s : Store) (q : Nat) :
    (∀ c : Comment, c ∈ commentList s q ↔ c ∈ s.comments ∧ c.post = q) ∧
    List.Pairwise newerFirst (commentList s q) ∧
    (∀ i j : Fin (commentList s q).length,
      ((commentList s q).get i).created_at < ((commentList s q).get j).created_at →
        (j : Nat) < (i : Nat)) := by
  have hp : List.Pairwise newerFirst (commentList s q) :=
    List.sorted_insertionSort newerFirst _
  refine ⟨?_, hp, ?_⟩
  · intro c
    simp [commentList, List.mem_insertionSort, List.mem_filter]
  · intro i j hij
    rcases Nat.lt_trichotomy (j : Nat) (i : Nat) with h | h | h
    · exact h
    · exfalso
      have : i = j := Fin.ext h.symm
      subst this
      exact Nat.lt_irrefl _ hij
    · exfalso
      have hle := List.pairwise_iff_get.mp hp i j h
      exact absurd hij (Nat.not_lt.mpr hle)

/-- Witness for C5 at a concrete store and post: membership in the list
under post 1 of `storeA` is parent-scoped membership in the table. -/
theorem C5_witness : cB ∈ commentList storeA 1 ↔ cB ∈ storeA.comments ∧ cB.post = 1 :=
  (C5_comment_list_exact_and_sorted storeA 1).1 cB

/-- C3: for a body that passes validation, creating a comment under a
missing URL post fails with not-found (nothing inserted — the error
carries no store), and a successful create always attaches the new row to
the URL post and appends exactly that row, whatever the body's `post`
field said. -/
theorem C3_create_not_found_or_forced_attachment (s : Store) (q : Nat)
    (b : CommentBody) (now : Nat) (hv : validateCommentBody s b false = none) :
    (postExists s q = false → commentCreate s q b now = .error .notFound) ∧
    (∀ s2 c, commentCreate s q b now = .ok (s2, c) →
        c.post = q ∧ s2.comments = s.comments ++ [c]) ∧
    (postExists s q = true →
        commentCreate s q b now =
          .ok ({ s with comments := s.comments ++ [newComment s q b now],
                        nextCommentId := s.nextCommentId + 1 }, newComment s q b now)) := by
  have hfail : postExists s q = false → commentCreate s q b now = .error .notFound := by
    intro h
    simp [commentCreate, hv, h]
  have hsucc : postExists s q = true →
      commentCreate s q b now =
        .ok ({ s with comments := s.comments ++ [newComment s q b now],
                      nextCommentId := s.nextCommentId + 1 }, newComment s q b now) := by
    intro h
    simp [commentCreate, hv, h]
  refine ⟨hfail, ?_, hsucc⟩
  intro s2 c hok
  cases hq : postExists s q
  · rw [hfail hq] at hok
    exact absurd hok (by simp)
  · rw [hsucc hq] at hok
    injection hok with h
    injection h with h1 h2
    subst h1
    subst h2
    exact ⟨rfl, rfl⟩

/-- Body used by the C3 witness: its `post` field names post 2 while the
URL names post 1. -/
def bodyElse : CommentBody := ⟨some 2, some "x", some "hi"⟩

/-- The comment the C3 witness expects: attached to post 1, not to the
body's post 2. -/
def cElse : Comment := ⟨2, 1, "x", "hi", 7, 7⟩

/-- Store after the C3 witness create. -/
def storeB3 : Store := ⟨[pA, pB], [cA, cElse], 3⟩

/-- Witness for C3: a valid body pointing at post 2, posted under post 1,
yields a comment attached to post 1 appended to the table. -/
theorem C3_witness : cElse.post = 1 ∧ storeB3.comments = storeB.comments ++ [cElse] :=
  (C3_create_not_found_or_forced_attachment storeB 1 bodyElse 7 (by decide)).2.1
    storeB3 cElse rfl

/-- C7: deleting a post cascades: every comment of the deleted post is
gone from the table, and retrieving it afterwards under any URL post
yields not-found. -/
theorem C7_post_delete_cascades (s s2 : Store) (pk : Nat)
    (hu : uniqueCommentIds s) (hdel : postDelete s pk = .ok s2) :
    ∀ c ∈ s.comments, c.post = pk →
      c ∉ s2.comments ∧ ∀ q, commentRetrieve s2 q c.id = .error .notFound := by
  unfold postDelete at hdel
  cases hq : postExists s pk
  · rw [hq] at hdel
    simp at hdel
  · rw [hq] at hdel
    simp only [if_true] at hdel
    injection hdel with h
    subst h
    intro c hc hcp
    constructor
    · intro hmem
      have h1 := List.mem_filter.mp hmem
      have h2 : c.post ≠ pk := by simpa using h1.2
      exact h2 hcp
    · intro q
      have hnone :
          getScopedComment
            { s with posts := s.posts.filter (fun p => p.id != pk),
                     comments := s.comments.filter (fun c => c.post != pk) } q c.id
            = none := by
        unfold getScopedComment
        rw [List.find?_eq_none]
        intro x hx hxe
        have hx1 := List.mem_filter.mp hx
        have hx2 := List.mem_filter.mp hx1.1
        have hxid : x.id = c.id := by simpa using hxe
        have hxc : x = c := eq_of_mem_of_id_eq hu hx2.1 hc hxid
        have hxp : x.post ≠ pk := by simpa using hx2.2
        rw [hxc] at hxp
        exact hxp hcp
      simp [commentRetrieve, hnone]

/-- Witness for C7: deleting post 1 of `storeA` removes comment 1 (a
comment of post 1) and a later retrieve of it under its old URL is
not-found. -/
theorem C7_witness :
    cA ∉ (Store.mk [pB] [cC] 4).comments ∧
      ∀ q, commentRetrieve (Store.mk [pB] [cC] 4) q cA.id = .error .notFound :=
  C7_post_delete_cascades storeA (Store.mk [pB] [cC] 4) 1 (by decide) rfl
    cA (by decide) rfl

/-- C9: the single-comment endpoints look a comment up only inside the
queryset scoped to the URL post: an id that exists under another post is
not-found for retrieve, delete and update alike; a successful retrieve
returns a stored comment of the URL post with the URL id; and the scoped
lookup reads nothing from the post table (the post's own existence is
never re-checked). -/
theorem C9_single_comment_scoped_lookup (s : Store) (q pk : Nat)
    (hu : uniqueCommentIds s) :
    (∀ c ∈ s.comments, c.id = pk → c.post ≠ q →
        commentRetrieve s q pk = .error .notFound ∧
        commentDelete s q pk = .error .notFound ∧
        ∀ b isPatch now, commentUpdate s q pk b isPatch now = .error .notFound) ∧
    (∀ c, commentRetrieve s q pk = .ok c → c ∈ s.comments ∧ c.post = q ∧ c.id = pk) ∧
    (∀ posts2, getScopedComment { s with posts := posts2 } q pk = getScopedComment s q pk) := by
  refine ⟨?_, ?_, fun _ => rfl⟩
  · intro c hc hcid hcq
    have hnone : getScopedComment s q pk = none := by
      unfold getScopedComment
      rw [List.find?_eq_none]
      intro x hx hxe
      have hx1 := List.mem_filter.mp hx
      have hxid : x.id = pk := by simpa using hxe
      have hxc : x = c := eq_of_mem_of_id_eq hu hx1.1 hc (hxid.trans hcid.symm)
      have hxq : x.post = q := by simpa using hx1.2
      rw [hxc] at hxq
      exact hcq hxq
    exact ⟨by simp [commentRetrieve, hnone], by simp [commentDelete, hnone],
           fun b isPatch now => by simp [commentUpdate, hnone]⟩
  · intro c hok
    unfold commentRetrieve at hok
    cases hg : getScopedComment s q pk
    · rw [hg] at hok
      simp at hok
    · rw [hg] at hok
      injection hok with h
      subst h
      unfold getScopedComment at hg
      have h1 := List.mem_of_find?_eq_some hg
      have h2 := List.find?_some hg
      have h3 := List.mem_filter.mp h1
      exact ⟨h3.1, by simpa using h3.2, by simpa using h2⟩

/-- Witness for C9: comment id 3 exists but belongs to post 2, so
retrieving it under post 1 is not-found. -/
theorem C9_witness : commentRetrieve storeA 1 3 = .error .notFound :=
  ((C9_single_comment_scoped_lookup storeA 1 3 (by decide)).1 cC (by decide) rfl
    (by decide)).1

/-- C2 as amended: list, create and retrieve only ever touch comments
attached to the URL post; delete removes the URL-scoped comment; update
keeps the comment on the URL post provided the body's `post` field is
absent or names the URL post — a valid body `post` naming another post
re-attaches the comment (see the counterexample). -/
theorem C2_amended_scoped_attachment (s : Store) (q : Nat) :
    (∀ c ∈ commentList s q, c.post = q) ∧
    (∀ b now s2 c, commentCreate s q b now = .ok (s2, c) → c.post = q ∧ c ∈ s2.comments) ∧
    (∀ pk c, commentRetrieve s q pk = .ok c → c.post = q) ∧
    (∀ pk b isPatch now s2 c, b.post = none ∨ b.post = some q →
        commentUpdate s q pk b isPatch now = .ok (s2, c) → c.post = q ∧ c ∈ s2.comments) ∧
    (∀ pk s2, commentDelete s q pk = .ok s2 → ∀ c ∈ s2.comments, c.id ≠ pk) := by
  refine ⟨?_, ?_, ?_, ?_, ?_⟩
  · intro c hc
    have := (List.mem_filter.mp ((List.mem_insertionSort newerFirst).mp hc)).2
    simpa using this
  · intro b now s2 c hok
    unfold commentCreate at hok
    cases hv : validateCommentBody s b false
    · rw [hv] at hok
      simp only at hok
      cases hq : postExists s q
      · rw [hq] at hok
        simp at hok
      · rw [hq] at hok
        simp only [if_true] at hok
        injection hok with h
        injection h with h1 h2
        subst h1
        subst h2
        refine ⟨rfl, ?_⟩
        exact List.mem_append.mpr (Or.inr (List.mem_singleton.mpr rfl))
    · rw [hv] at hok
      simp at hok
  · intro pk c hok
    unfold commentRetrieve at hok
    cases hg : getScopedComment s q pk
    · rw [hg] at hok
      simp at hok
    · rw [hg] at hok
      injection hok with h
      subst h
      unfold getScopedComment at hg
      have h1 := List.mem_filter.mp (List.mem_of_find?_eq_some hg)
      simpa using h1.2
  · intro pk b isPatch now s2 c hbp hok
    unfold commentUpdate at hok
    cases hg : getScopedComment s q pk
    · rw [hg] at hok
      simp at hok
    case some c0 =>
      rw [hg] at hok
      cases hv : validateCommentBody s b isPatch
      · rw [hv] at hok
        simp only at hok
        injection hok with h
        injection h with h1 h2
        subst h1
        subst h2
        unfold getScopedComment at hg
        have hmem := List.mem_filter.mp (List.mem_of_find?_eq_some hg)
        have hid := List.find?_some hg
        have hid2 : c0.id = pk := by simpa using hid
        have hc0q : c0.post = q := by simpa using hmem.2
        constructor
        · rcases hbp with h | h
          · simp [h, hc0q]
          · simp [h]
        · refine List.mem_map.mpr ⟨c0, hmem.1, ?_⟩
          simp [hid2]
      · rw [hv] at hok
        simp at hok
  · intro pk s2 hok c hc
    unfold commentDelete at hok
    cases hg : getScopedComment s q pk
    · rw [hg] at hok
      simp at hok
    · rw [hg] at hok
      injection hok with h
      subst h
      have h1 := List.mem_filter.mp hc
      simpa using h1.2

/-- Body whose `post` names the URL post itself. -/
def bodySame : CommentBody := ⟨some 1, some "a", some "b"⟩

/-- Result of the C2 witness update. -/
def cSame : Comment := ⟨1, 1, "a", "b", 0, 5⟩

/-- Store after the C2 witness update. -/
def storeB4 : Store := ⟨[pA, pB], [cSame], 2⟩

/-- Witness for the amended C2: an update whose body names the URL post
keeps the comment attached to it. -/
theorem C2_amended_witness : cSame.post = 1 ∧ cSame ∈ storeB4.comments :=
  (C2_amended_scoped_attachment storeB 1).2.2.2.1 1 bodySame false 5 storeB4 cSame
    (Or.inr rfl) rfl

/-- Row created by the merge's create branch when the element carried the
explicit (falsy) id `0`. -/
def zeroComment (postId : Nat) (d : CommentPayload) (now : Nat) : Comment :=
  ⟨0, postId, d.author.getD "", d.content.getD "", now, now⟩

/-- Row created by the merge's create branch when the element carried no
id at all: the auto-increment counter assigns the key. -/
def freshComment (s : Store) (postId : Nat) (d : CommentPayload) (now : Nat) : Comment :=
  ⟨s.nextCommentId, postId, d.author.getD "", d.content.getD "", now, now⟩

/-- C10: an element whose id field holds the falsy value `0` is routed by
the truthiness test `if comment_id:` to the create branch — a new comment
attached to the target post is inserted, no scoped lookup runs and no
lookup error is raised. -/
theorem C10_zero_id_takes_create_branch (s : Store) (postId now : Nat)
    (d : CommentPayload) (rest : List CommentPayload) (h : d.id = some 0) :
    mergeStep postId now s d =
      ({ s with comments := s.comments ++ [zeroComment postId d now] }, none) ∧
    mergeComments postId now s (d :: rest) =
      mergeComments postId now
        { s with comments := s.comments ++ [zeroComment postId d now] } rest := by
  have h1 : mergeStep postId now s d =
      ({ s with comments := s.comments ++ [zeroComment postId d now] }, none) := by
    simp [mergeStep, createFromPayload, zeroComment, h]
  refine ⟨h1, ?_⟩
  simp only [mergeComments]
  rw [h1]

/-- Element with the falsy id `0`, used by several concrete checks. -/
def dZero : CommentPayload := ⟨some 0, some "a", some "b"⟩

/-- Witness for C10: under a store with no comments at all, the element
with id `0` is inserted rather than rejected. -/
theorem C10_witness :
    mergeStep 1 5 storeC dZero =
      ({ storeC with comments := storeC.comments ++ [zeroComment 1 dZero 5] }, none) :=
  (C10_zero_id_takes_create_branch storeC 1 5 dZero [] rfl).1

/-- Post payload submitting one comment element with id `0`. -/
def plZero : PostPayload := ⟨none, none, some [dZero]⟩

/-- C1 counterexample: under a post with no comments, a submitted element
with id `0` — an identifier belonging to no comment of the target post —
does not make the update fail: the update finishes without error and the
element is auto-created as a new comment. -/
theorem C1_claim_counterexample :
    (postSerializerUpdate storeC pA plZero 5).2 = none ∧
    (postSerializerUpdate storeC pA plZero 5).1.comments = [zeroComment 1 dZero 5] :=
  ⟨rfl, rfl⟩

/-- C1 as amended: an element with a nonzero id found under the target
post is overwritten field-by-field and persisted; a nonzero id with no
comment under the target post aborts the update with a lookup error; an
element with no id is inserted as a fresh comment of the target post
(id `0` instead takes the create branch, see C10). -/
theorem C1_amended_merge_characterization (s : Store) (postId now : Nat)
    (d : CommentPayload) (rest : List CommentPayload) :
    (∀ n c, d.id = some n → n ≠ 0 →
        s.comments.find? (fun x => x.id == n && x.post == postId) = some c →
        c.post = postId ∧ c.id = n ∧
        mergeComments postId now s (d :: rest) =
          mergeComments postId now
            { s with comments := overwriteIn s.comments n (applyPayload c d now) } rest ∧
        (applyPayload c d now).id = c.id ∧
        (applyPayload c d now).post = c.post ∧
        (applyPayload c d now).author = d.author.getD c.author ∧
        (applyPayload c d now).content = d.content.getD c.content ∧
        (applyPayload c d now).updated_at = now) ∧
    (∀ n, d.id = some n → n ≠ 0 →
        s.comments.find? (fun x => x.id == n && x.post == postId) = none →
        mergeComments postId now s (d :: rest) = (s, some .lookupFailed)) ∧
    (d.id = none →
        mergeComments postId now s (d :: rest) =
          mergeComments postId now
            { s with comments := s.comments ++ [freshComment s postId d now],
                     nextCommentId := s.nextCommentId + 1 } rest) := by
  refine ⟨?_, ?_, ?_⟩
  · intro n c hdn hnz hfind
    have hfound := List.find?_some hfind
    have hcp : c.post = postId := by
      have := hfound
      simp only [Bool.and_eq_true, beq_iff_eq] at this
      exact this.2
    have hcid : c.id = n := by
      have := hfound
      simp only [Bool.and_eq_true, beq_iff_eq] at this
      exact this.1
    have hstep : mergeStep postId now s d =
        ({ s with comments := overwriteIn s.comments n (applyPayload c d now) }, none) := by
      simp [mergeStep, hdn, hnz, hfind]
    refine ⟨hcp, hcid, ?_, ?_, rfl, rfl, rfl, rfl⟩
    · simp only [mergeComments]
      rw [hstep]
    · simp [applyPayload, hdn, hcid]
  · intro n hdn hnz hfind
    have hstep : mergeStep postId now s d = (s, some .lookupFailed) := by
      simp [mergeStep, hdn, hnz, hfind]
    simp only [mergeComments]
    rw [hstep]
  · intro hdn
    have hstep : mergeStep postId now s d =
        ({ s with comments := s.comments ++ [freshComment s postId d now],
                  nextCommentId := s.nextCommentId + 1 }, none) := by
      simp [mergeStep, createFromPayload, freshComment, hdn]
    simp only [mergeComments]
    rw [hstep]

/-- Element updating comment 1 in place. -/
def dOne : CommentPayload := ⟨some 1, some "a2", some "b2"⟩

/-- Witness for the amended C1: the element with the existing nonzero id 1
under post 1 of `storeB` takes the overwrite branch of the merge. -/
theorem C1_witness :
    mergeComments 1 5 storeB [dOne] =
      mergeComments 1 5
        { storeB with comments := overwriteIn storeB.comments 1 (applyPayload cA dOne 5) } [] :=
  ((C1_amended_merge_characterization storeB 1 5 dOne []).1 1 cA rfl
    (by decide) rfl).2.2.1

/-- The create branch keeps every stored comment. -/
theorem mem_createFromPayload (s : Store) (postId : Nat) (d : CommentPayload)
    (now : Nat) {c : Comment} (hc : c ∈ s.comments) :
    c ∈ (createFromPayload s postId d now).comments := by
  unfold createFromPayload
  cases d.id <;> simp [hc]

/-- One merge iteration keeps any stored comment whose id the element does
not carry. -/
theorem mergeStep_keeps (postId now : Nat) (s : Store) (d : CommentPayload)
    {c : Comment} (hc : c ∈ s.comments) (hne : d.id ≠ some c.id) :
    c ∈ (mergeStep postId now s d).1.comments := by
  unfold mergeStep
  cases hd : d.id with
  | none => exact mem_createFromPayload s postId d now hc
  | some cid =>
    cases h0 : (cid == 0)
    · simp only [h0, Bool.false_eq_true, if_false]
      cases hfind : s.comments.find? (fun x => x.id == cid && x.post == postId) with
      | none => exact hc
      | some c0 =>
        have hcc : (c.id == cid) = false := by
          rw [hd] at hne
          simp only [beq_eq_false_iff_ne]
          intro he
          exact hne (by rw [he])
        unfold overwriteIn
        refine List.mem_map.mpr ⟨c, hc, ?_⟩
        rw [hcc]
        simp
    · simp only [h0, if_true]
      exact mem_createFromPayload s postId d now hc

/-- One merge iteration never loses a comment id: every stored comment
still has a row with its id afterwards. -/
theorem mergeStep_id_survives (postId now : Nat) (s : Store) (d : CommentPayload)
    {c : Comment} (hc : c ∈ s.comments) :
    ∃ c2 ∈ (mergeStep postId now s d).1.comments, c2.id = c.id := by
  unfold mergeStep
  cases hd : d.id with
  | none => exact ⟨c, mem_createFromPayload s postId d now hc, rfl⟩
  | some cid =>
    cases h0 : (cid == 0)
    · simp only [h0, Bool.false_eq_true, if_false]
      cases hfind : s.comments.find? (fun x => x.id == cid && x.post == postId) with
      | none => exact ⟨c, hc, rfl⟩
      | some c0 =>
        unfold overwriteIn
        refine ⟨if c.id == cid then applyPayload c0 d now else c,
          List.mem_map.mpr ⟨c, hc, rfl⟩, ?_⟩
        cases hcc : (c.id == cid)
        · simp [hcc]
        · have h1 : c.id = cid := by simpa using hcc
          simp [hcc, applyPayload, hd, h1]
    · simp only [h0, if_true]
      exact ⟨c, mem_createFromPayload s postId d now hc, rfl⟩

/-- The whole merge loop keeps any stored comment whose id appears in no
submitted element, whether the loop succeeds or aborts. -/
theorem mergeComments_keeps (postId now : Nat) (l : List CommentPayload) :
    ∀ (s : Store) (c : Comment), c ∈ s.comments →
      (∀ d ∈ l, d.id ≠ some c.id) →
      c ∈ (mergeComments postId now s l).1.comments := by
  induction l with
  | nil => exact fun s c hc _ => hc
  | cons d rest ih =>
    intro s c hc hid
    simp only [mergeComments]
    have hstep := mergeStep_keeps postId now s d hc (hid d (List.mem_cons_self d rest))
    cases hres : mergeStep postId now s d with
    | mk s2 err =>
      rw [hres] at hstep
      cases err with
      | none => exact ih s2 c hstep (fun d2 hd2 => hid d2 (List.mem_cons_of_mem d hd2))
      | some e => exact hstep

/-- The whole merge loop never deletes: every stored comment id still has
a row after the loop, whether it succeeds or aborts. -/
theorem mergeComments_id_survives (postId now : Nat) (l : List CommentPayload) :
    ∀ (s : Store) (c : Comment), c ∈ s.comments →
      ∃ c2 ∈ (mergeComments postId now s l).1.comments, c2.id = c.id := by
  induction l with
  | nil => exact fun s c hc => ⟨c, hc, rfl⟩
  | cons d rest ih =>
    intro s c hc
    simp only [mergeComments]
    have hstep := mergeStep_id_survives postId now s d hc
    cases hres : mergeStep postId now s d with
    | mk s2 err =>
      rw [hres] at hstep
      obtain ⟨c2, hc2, hc2id⟩ := hstep
      cases err with
      | none =>
        obtain ⟨c3, hc3, hc3id⟩ := ih s2 c2 hc2
        exact ⟨c3, hc3, hc3id.trans hc2id⟩
      | some e => exact ⟨c2, hc2, hc2id⟩

/-- C8: a post update leaves every stored comment whose id appears in no
submitted element in the table unchanged, and deletes no comment — every
stored comment id still has a row afterwards (merge semantics, never
replace-all). -/
theorem C8_omitted_comments_untouched (s : Store) (p : Post) (pl : PostPayload)
    (now : Nat) :
    (∀ c ∈ s.comments, (∀ d ∈ pl.comments.getD [], d.id ≠ some c.id) →
        c ∈ (postSerializerUpdate s p pl now).1.comments) ∧
    (∀ c ∈ s.comments, ∃ c2 ∈ (postSerializerUpdate s p pl now).1.comments,
        c2.id = c.id) := by
  unfold postSerializerUpdate
  cases hplc : pl.comments with
  | none => exact ⟨fun c hc _ => hc, fun c hc => ⟨c, hc, rfl⟩⟩
  | some ds =>
    constructor
    · intro c hc hid
      apply mergeComments_keeps
      · exact hc
      · intro d hd
        exact hid d (by simpa using hd)
    · intro c hc
      exact mergeComments_id_survives p.id now ds _ c hc

/-- Post payload renaming the post and updating only comment 1. -/
def plC8 : PostPayload := ⟨some "T", none, some [dOne]⟩

/-- Witness for C8: comment 2 is omitted from the submitted list and is
still stored, unchanged, after the update. -/
theorem C8_witness : cB ∈ (postSerializerUpdate storeA pA plC8 5).1.comments :=
  (C8_omitted_comments_untouched storeA pA plC8 5).1 cB (by decide) (by decide)

end SimpleBlog
